import Mathlib

/-!
Verification of the compliance-scoring engine of the `dpdp` repository.

The definitions below are a shallow embedding of the Python code in
`src/assessment.py` and `src/questionnaire_loader.py`.  Python floats are
modelled as rationals (`ℚ`), Python `None` as `Option.none`, dictionaries as
association lists with Python-dict lookup semantics, and the file system seen
by `get_questionnaire` as an explicit record of query functions.  Every
Python `except` path is modelled explicitly so the Lean functions are total.
-/

namespace Dpdp

/-! ### String primitives mirroring Python's `str.lower`, `str.upper`,
`str.strip`, substring containment (`pat in s`) and `str.endswith`. -/

def lowerChar (c : Char) : Char :=
  if 'A' ≤ c ∧ c ≤ 'Z' then Char.ofNat (c.toNat + 32) else c

def lowerStr (s : String) : String := String.mk (s.data.map lowerChar)

def upperChar (c : Char) : Char :=
  if 'a' ≤ c ∧ c ≤ 'z' then Char.ofNat (c.toNat - 32) else c

def upperStr (s : String) : String := String.mk (s.data.map upperChar)

def isSpaceChar (c : Char) : Bool :=
  c = ' ' || c = '\t' || c = '\n' || c = '\r'

def stripStr (s : String) : String :=
  String.mk (((s.data.dropWhile isSpaceChar).reverse.dropWhile isSpaceChar).reverse)

/-- `leadMatch pat s` is true when `pat` is an initial segment of `s`. -/
def leadMatch : List Char → List Char → Bool
  | [], _ => true
  | _ :: _, [] => false
  | a :: as, b :: bs => a = b && leadMatch as bs

/-- `hasSub pat s` is true when `pat` occurs contiguously inside `s`. -/
def hasSub (pat : List Char) : List Char → Bool
  | [] => leadMatch pat []
  | c :: t => leadMatch pat (c :: t) || hasSub pat t

/-- Python's `pat in s` on strings. -/
def pyIn (pat s : String) : Bool := hasSub pat.data s.data

/-- Python's `s.endswith(pat)`. -/
def pyEndsWith (s pat : String) : Bool := leadMatch pat.data.reverse s.data.reverse

/-! ### Data model

`answer_points` is a Python dict mapping response text to a float or to
`None` (the "excluded from scoring" sentinel), modelled as an association
list `String × Option ℚ`.  A `Section` mirrors one entry of the
`sections` list of a questionnaire JSON document: `name` and `index` are
absent-able (`dict.get` with defaults in the code), `questions` only
matters through its length and order for scoring, so a question is kept as
its text. -/

abbrev AnswerPoints := List (String × Option ℚ)

structure Section where
  name : Option String
  weight : Option ℚ
  index : Option Nat
  questions : List String
  deriving DecidableEq, Repr

structure Questionnaire where
  sections : List Section
  answer_points : AnswerPoints
  deriving DecidableEq, Repr

/-- The session response map: `"s{i}_q{j}"` keys; a key can be present with
a null value, so the stored value is an `Option String`. -/
abbrev Responses := List (String × Option String)

def rlookup (rs : Responses) (k : String) : Option (Option String) := rs.lookup k

/-- The composite response key `f"s{section_idx}_q{q_idx}"`. -/
def respKey (s q : Nat) : String := "s" ++ toString s ++ "_q" ++ toString q

/-- `section.get('name', f'Section {s_idx+1}')`. -/
def effName (i : Nat) (sec : Section) : String :=
  sec.name.getD ("Section " ++ toString (i + 1))

/-! ### Answer-point resolution inside `calculate_section_score`
(`src/assessment.py` lines 273-304): exact dict match, then first
case-insensitive match in dict order, then the substring heuristics.
Note that the heuristic block runs whenever the `point` variable is still
`None`, which includes a case-insensitive match whose stored value is the
`None` sentinel; and that both the `"not applicable"` branch and the
unresolved fall-through leave `point = None`. -/

def ciLookup (pts : AnswerPoints) (lower : String) : Option (Option ℚ) :=
  match pts.find? (fun kv => lowerStr kv.1 = lower) with
  | some kv => some kv.2
  | none => none

def heuristic_point (lower : String) : Option ℚ :=
  if pyIn "yes" lower || pyIn "successfully completed" lower then some 1
  else if pyIn "no" lower || pyIn "not yet completed" lower then some 0
  else if pyIn "partial" lower || pyIn "needs improvement" lower then some (1/2)
  else none

/-- The value of the `point` variable after lines 273-304 of
`calculate_section_score` for a non-empty response string. -/
def section_point (pts : AnswerPoints) (resp : String) : Option ℚ :=
  match pts.lookup resp with
  | some v => v
  | none =>
    match ciLookup pts (lowerStr resp) with
    | some (some v) => some v
    | _ => heuristic_point (lowerStr resp)

/-! ### `calculate_section_score` (`src/assessment.py` lines 250-315). -/

/-- One loop iteration of `calculate_section_score`: accumulates
`(total_score, applicable_questions)`.  A missing key, a null value and an
empty-string response are all falsy (`if not response: continue`). -/
def css_step (pts : AnswerPoints) (rs : Responses) (sIdx : Nat)
    (acc : ℚ × Nat) (qIdx : Nat) : ℚ × Nat :=
  match rlookup rs (respKey sIdx qIdx) with
  | some (some r) =>
    if r = "" then acc
    else
      match section_point pts r with
      | some p => (acc.1 + p, acc.2 + 1)
      | none => acc
  | _ => acc

/-- `(total_score, applicable_questions)` after the question loop. -/
def css_totals (pts : AnswerPoints) (rs : Responses) (sIdx n : Nat) : ℚ × Nat :=
  (List.range n).foldl (css_step pts rs sIdx) (0, 0)

def calculate_section_score (sec : Section) (rs : Responses) (pts : AnswerPoints) :
    Option ℚ :=
  if sec.questions.isEmpty then none
  else if (css_totals pts rs (sec.index.getD 0) sec.questions.length).2 = 0 then none
  else some ((css_totals pts rs (sec.index.getD 0) sec.questions.length).1 /
             ((css_totals pts rs (sec.index.getD 0) sec.questions.length).2 : ℚ))

/-! Specification-style reformulation of the same loop: which questions are
counted, and what they contribute. -/

/-- A question is counted in `applicable_questions` iff its response is
present, non-null, non-empty, and resolves to a numeric point. -/
def answeredP (pts : AnswerPoints) (rs : Responses) (sIdx qIdx : Nat) : Bool :=
  match rlookup rs (respKey sIdx qIdx) with
  | some (some r) => r ≠ "" && (section_point pts r).isSome
  | _ => false

/-- The contribution of one question to `total_score`. -/
def question_points (pts : AnswerPoints) (rs : Responses) (sIdx qIdx : Nat) : ℚ :=
  match rlookup rs (respKey sIdx qIdx) with
  | some (some r) => if r = "" then 0 else (section_point pts r).getD 0
  | _ => 0

def answered_count (pts : AnswerPoints) (rs : Responses) (sIdx n : Nat) : Nat :=
  (List.range n).countP (answeredP pts rs sIdx)

def answered_total (pts : AnswerPoints) (rs : Responses) (sIdx n : Nat) : ℚ :=
  ((List.range n).map (question_points pts rs sIdx)).sum

/-! ### Score corrections (`src/assessment.py` lines 350-404 and 744-780). -/

/-- The key patched by `fix_known_scoring_issues`. -/
def notices_key : String :=
  "Notices are provided in English and all 22 official Indian languages listed in the Eighth Schedule of the Constitution."

/-- The dict-item assignment `answer_points[notices_key] = 1.0` applied
entrywise. -/
def fixEntry (kv : String × Option ℚ) : String × Option ℚ :=
  if kv.1 = notices_key then (kv.1, some 1) else kv

/-- `fix_known_scoring_issues` (lines 350-359): if the notices key is present
with value `0.0`, set it to `1.0`; otherwise leave the dict alone.  The map
form matches Python dict item assignment because dict keys are unique. -/
def fix_known_scoring_issues (pts : AnswerPoints) : AnswerPoints :=
  if pts.lookup notices_key = some (some 0) then pts.map fixEntry
  else pts

def full_compliance_patterns : List String :=
  ["yes, with", "notices are provided in english and all", "comprehensive",
   "robust", "full", "strict adherence", "established procedures",
   "clear verification", "dedicated"]

/-- `should_have_perfect_score` (lines 361-404); the `section_name` argument
is only logged.  Responses here are the non-null strings collected by the
caller, so the `any(r is None ...)` guard is vacuous. -/
def should_have_perfect_score (_name : String) (resps : List String) : Bool :=
  if resps.isEmpty then false
  else
    (resps.countP (fun r =>
      full_compliance_patterns.any (fun p => pyIn p (lowerStr r)))) = resps.length

/-- Python's `answer_points.get(response, 0.0)`: a missing key yields `0.0`,
a present key yields its stored value, which can be the `None` sentinel. -/
def getDefaultZero (pts : AnswerPoints) (r : String) : Option ℚ :=
  match pts.lookup r with
  | some v => v
  | none => some 0

/-- The `response_points` list of the "Data Collection and Processing"
branch: `[answer_points.get(response, 0.0) for response in section_responses
if response]`. -/
def dcp_points (pts : AnswerPoints) (resps : List String) : List (Option ℚ) :=
  (resps.filter (fun s => s ≠ "")).map (getDefaultZero pts)

/-- `verify_section_score` (lines 744-780).  `raw = none` models Python
`raw_score is None`; with a non-empty response list every branch then
evaluates `raw_score < 1.0`, a `TypeError`, modelled as result `none`. -/
def verify_section_score (name : String) (raw : Option ℚ) (resps : List String)
    (pts : AnswerPoints) : Option ℚ :=
  match resps, raw with
  | [], _ => some (raw.getD 0)
  | _ :: _, none => none
  | _ :: _, some r =>
    if name = "Data Collection and Processing" ∧ r < 1 ∧
        (∀ p ∈ dcp_points pts resps, p = some 1) ∧ dcp_points pts resps ≠ [] then
      some 1
    else if r < 1 ∧ should_have_perfect_score name resps then some 1
    else if (95 : ℚ)/100 ≤ r ∧ r < 1 then some 1
    else some r

/-! ### The per-section scoring loop inside `calculate_compliance_score`
(`src/assessment.py` lines 523-604).  Its accumulators are `total_points`
and the list `section_responses` of non-null responses; the denominator is
`max_points = len(section_questions)`.  `total_points` is increased only
when `answer_points.get(response) is not None`, i.e. only for an exact dict
key with a non-null stored value (a partial match assigns the local
`points` variable but never passes that guard). -/

def inline_add (pts : AnswerPoints) (r : String) : ℚ :=
  match pts.lookup r with
  | some (some v) => v
  | _ => 0

def inline_step (pts : AnswerPoints) (rs : Responses) (sIdx : Nat)
    (acc : ℚ × List String) (qIdx : Nat) : ℚ × List String :=
  match rlookup rs (respKey sIdx qIdx) with
  | some (some r) => (acc.1 + inline_add pts r, acc.2 ++ [r])
  | _ => acc

/-- `(total_points, section_responses)` after the question loop. -/
def inline_totals (pts : AnswerPoints) (rs : Responses) (sIdx n : Nat) :
    ℚ × List String :=
  (List.range n).foldl (inline_step pts rs sIdx) (0, [])

/-- `raw_score` (lines 575-578): set only when `max_points > 0` and
`section_responses` is non-empty, and it divides by `max_points`. -/
def inline_raw (pts : AnswerPoints) (rs : Responses) (sIdx n : Nat) : Option ℚ :=
  if 0 < n ∧ (inline_totals pts rs sIdx n).2 ≠ [] then
    some ((inline_totals pts rs sIdx n).1 / (n : ℚ))
  else none

/-- The stored `section_scores[section_name]` for one section (lines
579-604): verify the raw score, then store `None` when the section has no
responses; an exception inside the `try` block is also stored as `None`. -/
def section_final (pts : AnswerPoints) (rs : Responses) (sIdx : Nat)
    (sec : Section) : Option ℚ :=
  match verify_section_score (effName sIdx sec)
      (inline_raw pts rs sIdx sec.questions.length)
      (inline_totals pts rs sIdx sec.questions.length).2 pts with
  | none => none
  | some v =>
    if (inline_totals pts rs sIdx sec.questions.length).2 ≠ [] then some v else none

/-- `enumerate` over a list, taken from a start index. -/
def enumFromNat : Nat → List α → List (Nat × α)
  | _, [] => []
  | k, a :: t => (k, a) :: enumFromNat (k + 1) t

/-- The `section_scores` dict in insertion order. -/
def section_scores_list (pts : AnswerPoints) (rs : Responses)
    (sections : List Section) : List (String × Option ℚ) :=
  (enumFromNat 0 sections).map (fun p => (effName p.1 p.2, section_final pts rs p.1 p.2))

/-- Python dict lookup on an insertion-ordered association list: the last
binding of a key wins. -/
def dictGet (l : List (String × α)) (k : String) : Option α := l.reverse.lookup k

/-- One iteration of the weighting loop (lines 635-646): sections whose
stored score is absent or `None` are skipped, the rest contribute
`score × weight` and `weight`, with `section.get('weight', 1.0/len(sections))`. -/
def weight_step (n : Nat) (scores : List (String × Option ℚ))
    (acc : ℚ × ℚ) (p : Nat × Section) : ℚ × ℚ :=
  let w := p.2.weight.getD (1 / (n : ℚ))
  match dictGet scores (effName p.1 p.2) with
  | some (some v) => (acc.1 + v * w, acc.2 + w)
  | _ => acc

/-- `(total_weighted_score, total_weight)` after the weighting loop. -/
def overall_pair (sections : List Section) (rs : Responses) (pts : AnswerPoints) :
    ℚ × ℚ :=
  (enumFromNat 0 sections).foldl
    (weight_step sections.length (section_scores_list pts rs sections)) (0, 0)

/-- The overall percentage computation of lines 651-657. -/
def overall_from (sections : List Section) (rs : Responses) (pts : AnswerPoints) : ℚ :=
  if 0 < (overall_pair sections rs pts).2 then
    (overall_pair sections rs pts).1 / (overall_pair sections rs pts).2 * 100
  else 0

/-- The default scoring table of lines 471-484, used when the questionnaire
defines no `answer_points`. -/
def default_answer_points : AnswerPoints :=
  [("Yes - Successfully completed", some 1),
   ("Yes, with comprehensive documentation", some 1),
   ("Yes, with full documentation", some 1),
   ("Yes", some 1),
   ("Partially completed", some (1/2)),
   ("In progress", some (1/2)),
   ("Partially, but training needs improvement", some (1/2)),
   ("Partially, but the process needs improvement", some (1/2)),
   ("No - Not yet completed", some 0),
   ("No - Not Applicable", none),
   ("No", some 0),
   ("Not applicable", none)]

/-- The scoring pipeline of `calculate_compliance_score` from the loaded
questionnaire and response map to the section-score dict and the overall
percentage (the session cache, logging and recommendation enrichment carry
no scoring semantics). -/
def calculate_compliance_score (q : Questionnaire) (rs : Responses) :
    List (String × Option ℚ) × ℚ :=
  let pts0 := if q.answer_points.isEmpty then default_answer_points else q.answer_points
  let pts := fix_known_scoring_issues pts0
  (section_scores_list pts rs q.sections, overall_from q.sections rs pts)

/-! ### Questionnaire resolution (`get_questionnaire`,
`create_fallback_questionnaire`, `src/assessment.py` lines 52-226) and
weight repair (`fix_questionnaire_weights`,
`src/questionnaire_loader.py` lines 117-148).

The file system is an explicit record: `readJson p = none` models any
exception while opening or JSON-decoding the file at `p` (the
`except` clause of `get_questionnaire` then returns `{"sections": []}`). -/

def QDIR : String := "Questionnaire"

def pjoin (a b : String) : String := a ++ "/" ++ b

structure FS where
  dirExists : String → Bool
  fileExists : String → Bool
  listDir : String → List String
  readJson : String → Option Questionnaire

def emptyQuestionnaire : Questionnaire := ⟨[], []⟩

/-- The `section_names` chosen by `create_fallback_questionnaire`
(lines 181-201). -/
def fallback_section_names (reg ind : String) : List String :=
  if reg = "DPDP" then
    if lowerStr ind = "e-commerce" then
      ["DPDP Data Collection and Processing", "DPDP Data Principal Rights",
       "DPDP Data Breach and Security", "DPDP Governance and Documentation"]
    else
      ["Data Collection and Processing", "Data Principal Rights"]
  else
    ["Data Collection", "Data Processing"]

/-- The minimal synthesized questionnaire of lines 203-226: one sample
question per section name, weights equal-split. -/
def fallback_minimal (reg ind : String) : Questionnaire :=
  ⟨(fallback_section_names reg ind).map (fun nm =>
      ⟨some nm, some (1 / ((fallback_section_names reg ind).length : ℚ)), none,
       ["Sample question for " ++ nm]⟩), []⟩

/-- `create_fallback_questionnaire` (lines 156-226).  `lockedEcom` models
`st.session_state.locked_questionnaire_type == "e-commerce"`; that branch
reassigns `industry_code` to `"e-commerce"` and, when `E-commerce.json`
exists and decodes, returns it verbatim. -/
def create_fallback_questionnaire (reg ind : String) (fs : FS)
    (lockedEcom : Bool) : Questionnaire :=
  if lockedEcom = true ∧ lowerStr ind ≠ "e-commerce" then
    match (if fs.fileExists (pjoin (pjoin QDIR reg) "E-commerce.json") then
             fs.readJson (pjoin (pjoin QDIR reg) "E-commerce.json")
           else none) with
    | some q => q
    | none => fallback_minimal reg "e-commerce"
  else fallback_minimal reg ind

/-- The `found_file` selection of `get_questionnaire` (lines 87-126), after
the regulation directory is known to exist.  `none` is the NPC branch's
early `return create_fallback_questionnaire(...)`. -/
def resolve_found_file (reg ind : String) (fs : FS) (regDir : String) :
    Option String :=
  if reg = "PDPPL" then
    if fs.fileExists (pjoin regDir (ind ++ ".json")) then some (ind ++ ".json")
    else
      let files := (fs.listDir regDir).filter (fun f => pyEndsWith (lowerStr f) ".json")
      match files.filter (fun f => lowerStr f = lowerStr (ind ++ ".json")) with
      | m :: _ => some m
      | [] => some "Oil_and_Gas.json"
  else if reg = "NPC" then
    if fs.fileExists (pjoin regDir "npc.json") then some "npc.json" else none
  else if reg = "OAIC" then
    if fs.fileExists (pjoin regDir (ind ++ ".json")) then some (ind ++ ".json")
    else some "General.json"
  else
    if fs.fileExists (pjoin regDir (ind ++ ".json")) then some (ind ++ ".json")
    else some "Banking and finance.json"

/-- The body of `get_questionnaire` after the input normalization of lines
71-73. -/
def get_questionnaire_core (reg ind : String) (fs : FS) (lockedEcom : Bool) :
    Questionnaire :=
  if fs.dirExists (pjoin QDIR reg) = false then
    create_fallback_questionnaire reg ind fs lockedEcom
  else
    match resolve_found_file reg ind fs (pjoin QDIR reg) with
    | none => create_fallback_questionnaire reg ind fs lockedEcom
    | some f =>
      match fs.readJson (pjoin (pjoin QDIR reg) f) with
      | some q => q
      | none => emptyQuestionnaire

/-- `get_questionnaire` (lines 52-154), minus its caches, which only memoise
this computation.  Any exception while reading or decoding the resolved
file is caught and yields `{"sections": []}`. -/
def get_questionnaire (regulation industry : String) (fs : FS)
    (lockedEcom : Bool) : Questionnaire :=
  get_questionnaire_core (upperStr (stripStr regulation))
    (lowerStr (stripStr industry)) fs lockedEcom

/-- Replace a section's weight, keeping everything else. -/
def setWeight (s : Section) (w : Option ℚ) : Section :=
  ⟨s.name, w, s.index, s.questions⟩

/-- Step one of `fix_questionnaire_weights`: a missing, non-numeric or
non-positive weight becomes `1.0 / section_count`. -/
def fqw_step1 (n : ℚ) (s : Section) : Section :=
  match s.weight with
  | some x => if 0 < x then s else setWeight s (some (1 / n))
  | none => setWeight s (some (1 / n))

/-- The sections after the equal-weight repair of lines 129-131. -/
def fqw_secs1 (q : Questionnaire) : List Section :=
  q.sections.map (fqw_step1 (q.sections.length : ℚ))

/-- `total_weight` of line 134. -/
def fqw_total (q : Questionnaire) : ℚ :=
  ((fqw_secs1 q).map (fun s => s.weight.getD 0)).sum

/-- `fix_questionnaire_weights` (`src/questionnaire_loader.py` lines
117-148): equal weights for invalid entries, then leave the weights alone
when their total lies in `[0.99, 1.01]`, otherwise divide each by the
total. -/
def fix_questionnaire_weights (q : Questionnaire) : Option Questionnaire :=
  if q.sections.isEmpty then none
  else if 99/100 ≤ fqw_total q ∧ fqw_total q ≤ 101/100 then
    some ⟨fqw_secs1 q, q.answer_points⟩
  else
    some ⟨(fqw_secs1 q).map (fun s => setWeight s (some (s.weight.getD 0 / fqw_total q))),
          q.answer_points⟩

/-- The weights of a questionnaire's sections, in order. -/
def weightsOf (q : Questionnaire) : List (Option ℚ) :=
  q.sections.map Section.weight

/-! ### Concrete instances used to test the properties on explicit inputs. -/

/-- A file system whose regulation directories exist but in which every file
read fails. -/
def fsEmptyAll : FS := ⟨fun _ => true, fun _ => false, fun _ => [], fun _ => none⟩

/-- A one-section NPC questionnaire document. -/
def qNPC : Questionnaire := ⟨[⟨some "NPC Sec", some 1, none, ["q"]⟩], [("Yes", some 1)]⟩

/-- A file system containing exactly `Questionnaire/NPC/npc.json`. -/
def fsNPC : FS :=
  ⟨fun _ => true,
   fun p => p = "Questionnaire/NPC/npc.json",
   fun _ => [],
   fun p => if p = "Questionnaire/NPC/npc.json" then some qNPC else none⟩

/-- Two sections with positive weights summing to `201/200`, inside the
`[0.99, 1.01]` band but different from `1`. -/
def qBand : Questionnaire :=
  ⟨[⟨some "S1", some (1/2), none, ["q"]⟩, ⟨some "S2", some (101/200), none, ["q"]⟩], []⟩

/-- Two sections with positive weights summing to `1/2`, outside the band. -/
def qHalf : Questionnaire :=
  ⟨[⟨some "S1", some (1/4), none, ["q"]⟩, ⟨some "S2", some (1/4), none, ["q"]⟩], []⟩

/-- A three-question section whose responses are two table hits worth `1.0`
and one exact-match `"Not applicable"` (the `None` sentinel). -/
def secThree : Section := ⟨some "S", some 1, none, ["q0", "q1", "q2"]⟩

def rsThree : Responses :=
  [("s0_q0", some "Yes"), ("s0_q1", some "Yes"), ("s0_q2", some "Not applicable")]

def ptsThree : AnswerPoints := [("Yes", some 1), ("Not applicable", none)]

/-- Scenario 2 of the specification: section "A" fully answered with
responses worth `1.0`, section "B" fully unanswered, weights `0.5`/`0.5`. -/
def secA7 : Section := ⟨some "A", some (1/2), none, ["qa0", "qa1"]⟩

def secB7 : Section := ⟨some "B", some (1/2), none, ["qb0", "qb1"]⟩

def qScenario : Questionnaire := ⟨[secA7, secB7], [("Yes", some 1)]⟩

def rsScenario : Responses := [("s0_q0", some "Yes"), ("s0_q1", some "Yes")]

/-- The answer-points table of `qScenario` after `fix_known_scoring_issues`
(it contains no notices key, so it is unchanged). -/
def ptsScenario : AnswerPoints := [("Yes", some 1)]

/-- An answer-points table containing the notices key with value `0.0`. -/
def ptsNotices : AnswerPoints := [("x", some (1/2)), (notices_key, some 0)]

/-- A file system with no regulation directories at all. -/
def fsNoDir : FS := ⟨fun _ => false, fun _ => false, fun _ => [], fun _ => none⟩

/-! ## Theorems -/

/-! ### Helper lemmas -/

theorem inline_totals_zero (pts : AnswerPoints) (rs : Responses) (sIdx : Nat) :
    inline_totals pts rs sIdx 0 = (0, []) := rfl

theorem inline_raw_eq (pts : AnswerPoints) (rs : Responses) (sIdx n : Nat)
    (h : (inline_totals pts rs sIdx n).2 ≠ []) :
    inline_raw pts rs sIdx n = some ((inline_totals pts rs sIdx n).1 / (n : ℚ)) := by
  have hn : 0 < n := by
    cases n with
    | zero => exact absurd (congrArg Prod.snd (inline_totals_zero pts rs sIdx)) h
    | succ m => exact Nat.succ_pos m
  unfold inline_raw
  rw [if_pos ⟨hn, h⟩]

/-- C9: for every numeric raw section score, the score returned by
`verify_section_score` is greater than or equal to the raw score: the
correction pass only raises scores, never lowers them. -/
theorem verify_section_score_monotone (name : String) (r : ℚ)
    (resps : List String) (pts : AnswerPoints) (q : ℚ)
    (h : verify_section_score name (some r) resps pts = some q) : r ≤ q := by
  cases resps with
  | nil =>
    simp only [verify_section_score, Option.getD_some, Option.some.injEq] at h
    exact le_of_eq h
  | cons a t =>
    simp only [verify_section_score] at h
    split_ifs at h with h1 h2 h3
    · exact (Option.some.injEq _ _ ▸ h) ▸ le_of_lt h1.2.1
    · exact (Option.some.injEq _ _ ▸ h) ▸ le_of_lt h2.1
    · exact (Option.some.injEq _ _ ▸ h) ▸ le_of_lt h3.2
    · simp only [Option.some.injEq] at h
      exact le_of_eq h

/-- Witness for C9 at a concrete input: the "Data Collection and
Processing" correction raises `1/2` to `1`. -/
theorem verify_section_score_monotone_witness : (1 : ℚ)/2 ≤ 1 :=
  verify_section_score_monotone "Data Collection and Processing" (1/2)
    ["Good"] [("Good", some 1)] 1
    (by
      norm_num [verify_section_score, dcp_points, getDefaultZero, List.lookup]
      intro h
      exact absurd h (by decide))

theorem lookup_map_fixEntry_ne (k : String) (hk : k ≠ notices_key) :
    ∀ l : AnswerPoints, List.lookup k (l.map fixEntry) = List.lookup k l := by
  intro l
  induction l with
  | nil => rfl
  | cons a t ih =>
    obtain ⟨a1, a2⟩ := a
    by_cases ha : a1 = notices_key
    · subst ha
      have hb : (k == notices_key) = false := by
        simp only [beq_eq_false_iff_ne]
        exact hk
      simp [fixEntry, List.lookup, hb, ih]
    · have hfe : fixEntry (a1, a2) = (a1, a2) := by simp [fixEntry, ha]
      rw [List.map_cons, hfe]
      cases hkb : (k == a1) with
      | true => simp only [List.lookup, hkb]
      | false =>
        simp only [List.lookup, hkb]
        exact ih

theorem lookup_map_fixEntry_key (l : AnswerPoints)
    (h : ∃ v, List.lookup notices_key l = some v) :
    List.lookup notices_key (l.map fixEntry) = some (some 1) := by
  induction l with
  | nil => simp [List.lookup] at h
  | cons a t ih =>
    obtain ⟨a1, a2⟩ := a
    by_cases ha : notices_key = a1
    · subst ha
      simp [fixEntry, List.lookup]
    · have ha' : ¬(a1 = notices_key) := fun hh => ha hh.symm
      have hb : (notices_key == a1) = false := by
        simp only [beq_eq_false_iff_ne]
        exact ha
      obtain ⟨v, hv⟩ := h
      simp only [List.lookup, hb] at hv
      have hfe : fixEntry (a1, a2) = (a1, a2) := by simp [fixEntry, ha']
      rw [List.map_cons, hfe]
      simp only [List.lookup, hb]
      exact ih ⟨v, hv⟩

/-- C10: `fix_known_scoring_issues` changes at most the notices key, and
only when that key is present with value `0.0`, in which case its value
becomes `1.0`; every other key-value pair is unchanged and no key is added
or removed. -/
theorem fix_known_scoring_issues_frame (pts : AnswerPoints) :
    ((fix_known_scoring_issues pts).map Prod.fst = pts.map Prod.fst) ∧
    (∀ k, k ≠ notices_key →
       List.lookup k (fix_known_scoring_issues pts) = List.lookup k pts) ∧
    (List.lookup notices_key pts = some (some 0) →
       List.lookup notices_key (fix_known_scoring_issues pts) = some (some 1)) ∧
    (List.lookup notices_key pts ≠ some (some 0) →
       fix_known_scoring_issues pts = pts) := by
  unfold fix_known_scoring_issues
  by_cases h : List.lookup notices_key pts = some (some 0)
  · rw [if_pos h]
    refine ⟨?_, ?_, ?_, ?_⟩
    · rw [List.map_map]
      apply List.map_congr_left
      intro a _
      show (fixEntry a).1 = a.1
      unfold fixEntry
      split <;> rfl
    · intro k hk
      exact lookup_map_fixEntry_ne k hk pts
    · intro _
      exact lookup_map_fixEntry_key pts ⟨some 0, h⟩
    · intro hc
      exact absurd h hc
  · rw [if_neg h]
    exact ⟨rfl, fun _ _ => rfl, fun hc => absurd hc h, fun _ => rfl⟩

/-- Witness for C10 at a concrete table holding the notices key at `0.0`:
the entry is rewritten to `1.0`. -/
theorem fix_known_scoring_issues_frame_witness :
    List.lookup notices_key (fix_known_scoring_issues ptsNotices) = some (some 1) :=
  (fix_known_scoring_issues_frame ptsNotices).2.2.1 (by decide)

/-- C5 (code bug): a response whose lowercased text contains
"not applicable" and matches no table entry is resolved by the earlier
"no" substring rule — "no" occurs inside "not applicable" — to `0.0`
points and is counted in the section denominator instead of being
excluded; the dedicated "not applicable" heuristic branch is unreachable. -/
theorem not_applicable_counted :
    pyIn "no" (lowerStr "Not applicable") = true ∧
    heuristic_point (lowerStr "Not applicable") = some 0 ∧
    section_point [] "Not applicable" = some 0 ∧
    calculate_section_score ⟨some "S", some 1, none, ["q0"]⟩
      [("s0_q0", some "Not applicable")] [] = some 0 := by
  refine ⟨by decide, by decide, by decide, ?_⟩
  have h0 : rlookup [("s0_q0", some "Not applicable")] (respKey 0 0) =
      some (some "Not applicable") := by decide
  have hsp : section_point [] "Not applicable" = some 0 := by decide
  norm_num [calculate_section_score, css_totals, List.range_succ, List.range_zero,
    css_step, h0, hsp]
  decide

/-- C6 counterexample: the unresolved response "Somewhat done" is not
"0 points counted in the denominator" in `calculate_section_score`: it is
skipped entirely, so a section whose only response is unresolved comes back
unscored (`none`) rather than scored `0`. -/
theorem unresolved_response_counterexample :
    section_point [] "Somewhat done" = none ∧
    calculate_section_score ⟨some "S", some 1, none, ["q0"]⟩
      [("s0_q0", some "Somewhat done")] [] = none ∧
    (none : Option ℚ) ≠ some 0 := by decide

/-- C6 amended: in `calculate_section_score` a present response with no
table or heuristic match increments neither the points total nor the
denominator; in the scoring loop of `calculate_compliance_score` such a
response adds `0` to `total_points` while the raw-score denominator — the
full question count — includes its question; neither path raises. -/
theorem unresolved_response_amended :
    (∀ (pts : AnswerPoints) (rs : Responses) (sIdx : Nat) (acc : ℚ × Nat)
       (qIdx : Nat) (r : String),
       rlookup rs (respKey sIdx qIdx) = some (some r) → r ≠ "" →
       section_point pts r = none →
       css_step pts rs sIdx acc qIdx = acc) ∧
    (∀ (pts : AnswerPoints) (r : String),
       List.lookup r pts = none → inline_add pts r = 0) ∧
    (∀ (pts : AnswerPoints) (rs : Responses) (sIdx n : Nat),
       (inline_totals pts rs sIdx n).2 ≠ [] →
       inline_raw pts rs sIdx n = some ((inline_totals pts rs sIdx n).1 / (n : ℚ))) := by
  refine ⟨?_, ?_, ?_⟩
  · intro pts rs sIdx acc qIdx r hlook hne hsp
    unfold css_step
    rw [hlook]
    simp [hne, hsp]
  · intro pts r h
    unfold inline_add
    rw [h]
  · intro pts rs sIdx n h
    exact inline_raw_eq pts rs sIdx n h

/-- Witness for C6 at the concrete unresolved response "Somewhat done". -/
theorem unresolved_response_amended_witness :
    css_step [] [("s0_q0", some "Somewhat done")] 0 (0, 0) 0 = (0, 0) ∧
    inline_add [] "Somewhat done" = 0 :=
  ⟨unresolved_response_amended.1 [] [("s0_q0", some "Somewhat done")] 0 (0, 0) 0
      "Somewhat done" (by decide) (by decide) (by decide),
   unresolved_response_amended.2.1 [] "Somewhat done" (by decide)⟩

/-- C1 counterexample: with a two-question section of which exactly one
question is answered, with a response worth `1.0`, the raw score computed
by the scoring loop of `calculate_compliance_score` is `1/2` — the
denominator is the question count — whereas total points over answered
count is `1/1`. -/
theorem raw_score_denominator_counterexample :
    inline_raw [("A", some 1)] [("s0_q0", some "A")] 0 2 = some (1/2) ∧
    answered_count [("A", some 1)] [("s0_q0", some "A")] 0 2 = 1 ∧
    answered_total [("A", some 1)] [("s0_q0", some "A")] 0 2 = 1 ∧
    (some ((1 : ℚ)/2) ≠ some ((1 : ℚ)/1)) := by
  refine ⟨?_, by decide, ?_, by norm_num⟩
  · have h0 : rlookup [("s0_q0", some "A")] (respKey 0 0) = some (some "A") := by decide
    have h1 : rlookup [("s0_q0", some "A")] (respKey 0 1) = none := by decide
    have ha : inline_add [("A", some 1)] "A" = 1 := by decide
    norm_num [inline_raw, inline_totals, List.range_succ, List.range_zero,
      inline_step, h0, h1, ha]
  · have h0 : question_points [("A", some 1)] [("s0_q0", some "A")] 0 0 = 1 := by decide
    have h1 : question_points [("A", some 1)] [("s0_q0", some "A")] 0 1 = 0 := by decide
    norm_num [answered_total, List.range_succ, List.range_zero, h0, h1]

/-- C2 counterexample: with the regulation directory present but every
file read failing, `get_questionnaire` returns `{"sections": []}` — zero
sections, not the synthesized fallback. -/
theorem questionnaire_empty_on_read_failure :
    get_questionnaire "DPDP" "x" fsEmptyAll false = emptyQuestionnaire ∧
    (get_questionnaire "DPDP" "x" fsEmptyAll false).sections.length = 0 ∧
    get_questionnaire "DPDP" "x" fsEmptyAll false ≠
      create_fallback_questionnaire "DPDP" "x" fsEmptyAll false := by decide

/-- C3 counterexample: two sections with positive weights `1/2` and
`101/200` sum to `201/200 ≠ 1`, yet `fix_questionnaire_weights` leaves them
unchanged (the total lies inside the `[0.99, 1.01]` band), so the repaired
weights do not sum to `1.0` within `1e-6`. -/
theorem fix_weights_band_counterexample :
    weightsOf qBand = [some (1/2), some (101/200)] ∧
    ((0 : ℚ) < 1/2 ∧ (0 : ℚ) < 101/200) ∧
    (qBand.sections.map (fun s => s.weight.getD 0)).sum = 201/200 ∧
    fix_questionnaire_weights qBand = some qBand ∧
    ((201 : ℚ)/200 ≠ 1) ∧ ¬((201 : ℚ)/200 - 1 ≤ 1/1000000) := by
  refine ⟨rfl, by norm_num, by norm_num [qBand], ?_, by norm_num, by norm_num⟩
  norm_num [fix_questionnaire_weights, fqw_total, fqw_secs1, fqw_step1, qBand, setWeight]

/-- C4 counterexample: a section not named "Data Collection and
Processing", with raw score `1/2` and a single answered response mapping to
exactly `1.0` in the table, is not corrected to `1.0`. -/
theorem all_ones_rule_name_gated :
    dcp_points [("Good answer", some 1)] ["Good answer"] = [some 1] ∧
    verify_section_score "Other" (some (1/2)) ["Good answer"]
      [("Good answer", some 1)] = some (1/2) ∧
    some ((1 : ℚ)/2) ≠ some 1 := by
  have hs : should_have_perfect_score "Other" ["Good answer"] = false := by decide
  refine ⟨by decide, ?_, by norm_num⟩
  norm_num [verify_section_score, hs]
  intro h
  exact absurd h (by decide)

theorem css_fold_eq (pts : AnswerPoints) (rs : Responses) (sIdx : Nat) :
    ∀ (l : List Nat) (a : ℚ) (b : Nat),
      l.foldl (css_step pts rs sIdx) (a, b) =
        (a + (l.map (question_points pts rs sIdx)).sum,
         b + l.countP (answeredP pts rs sIdx)) := by
  intro l
  induction l with
  | nil =>
    intro a b
    simp
  | cons q t ih =>
    intro a b
    have hstep : css_step pts rs sIdx (a, b) q =
        (a + question_points pts rs sIdx q,
         b + (if answeredP pts rs sIdx q then 1 else 0)) := by
      unfold css_step question_points answeredP
      cases hl : rlookup rs (respKey sIdx q) with
      | none => simp [hl]
      | some o =>
        cases o with
        | none => simp [hl]
        | some r =>
          by_cases hr : r = ""
          · simp [hl, hr]
          · cases hsp : section_point pts r with
            | none => simp [hl, hr, hsp]
            | some p => simp [hl, hr, hsp]
    rw [List.foldl_cons, hstep, ih, List.map_cons, List.sum_cons, List.countP_cons]
    simp only [Prod.mk.injEq]
    constructor
    · ring
    · cases answeredP pts rs sIdx q <;> simp +arith

/-- C1 amended: `calculate_section_score` does divide total points by the
count of answered, non-excluded responses; but the raw score computed by
the scoring loop of `calculate_compliance_score` divides `total_points` by
the full question count, so unanswered questions and excluded responses do
appear in that denominator. -/
theorem raw_score_amended :
    (∀ (sec : Section) (rs : Responses) (pts : AnswerPoints),
       answered_count pts rs (sec.index.getD 0) sec.questions.length ≠ 0 →
       calculate_section_score sec rs pts =
         some (answered_total pts rs (sec.index.getD 0) sec.questions.length /
               (answered_count pts rs (sec.index.getD 0) sec.questions.length : ℚ))) ∧
    (∀ (pts : AnswerPoints) (rs : Responses) (sIdx n : Nat),
       (inline_totals pts rs sIdx n).2 ≠ [] →
       inline_raw pts rs sIdx n = some ((inline_totals pts rs sIdx n).1 / (n : ℚ))) := by
  constructor
  · intro sec rs pts hcount
    have hne : sec.questions.isEmpty = false := by
      cases hq : sec.questions with
      | nil =>
        exfalso
        apply hcount
        simp [answered_count, hq]
      | cons a t => rfl
    unfold answered_count at hcount
    unfold calculate_section_score css_totals answered_count answered_total
    rw [css_fold_eq pts rs (sec.index.getD 0) (List.range sec.questions.length) 0 0]
    simp only [hne, Bool.false_eq_true, if_false, zero_add]
    rw [if_neg hcount]
  · intro pts rs sIdx n h
    exact inline_raw_eq pts rs sIdx n h

/-- Witness for C1 amended: three questions, two answered with `1.0` each
and one answered "Not applicable" (excluded by its table entry), score
`2/2`. -/
theorem raw_score_amended_witness :
    calculate_section_score secThree rsThree ptsThree = some ((2 : ℚ)/2) := by
  have h := raw_score_amended.1 secThree rsThree ptsThree (by decide)
  rw [h]
  have ht : answered_total ptsThree rsThree (secThree.index.getD 0)
      secThree.questions.length = 2 := by
    have e0 : question_points ptsThree rsThree 0 0 = 1 := by decide
    have e1 : question_points ptsThree rsThree 0 1 = 1 := by decide
    have e2 : question_points ptsThree rsThree 0 2 = 0 := by decide
    norm_num [answered_total, List.range_succ, List.range_zero, e0, e1, e2, secThree]
  have hc : answered_count ptsThree rsThree (secThree.index.getD 0)
      secThree.questions.length = 2 := by decide
  rw [ht, hc]
  norm_num

/-- C4 amended: the all-`1.0` correction rule applies only to the section
named "Data Collection and Processing": there, a raw score below `1.0`
whose answered responses all map to exactly `1.0` points is forced to
`1.0` (and the function returns at the first applicable rule); for any
other section name, with no full-compliance pattern match and raw score
below `0.95`, the raw score is returned unchanged. -/
theorem all_ones_correction_amended :
    (∀ (r : ℚ) (resps : List String) (pts : AnswerPoints),
       resps ≠ [] → r < 1 →
       dcp_points pts resps ≠ [] →
       (∀ p ∈ dcp_points pts resps, p = some 1) →
       verify_section_score "Data Collection and Processing" (some r) resps pts =
         some 1) ∧
    (∀ (name : String) (r : ℚ) (resps : List String) (pts : AnswerPoints),
       resps ≠ [] → name ≠ "Data Collection and Processing" →
       r < 95/100 → should_have_perfect_score name resps = false →
       verify_section_score name (some r) resps pts = some r) := by
  constructor
  · intro r resps pts hne hr hdne hall
    cases resps with
    | nil => exact absurd rfl hne
    | cons a t =>
      simp only [verify_section_score]
      rw [if_pos ⟨trivial, hr, hall, hdne⟩]
  · intro name r resps pts hne hname hr hsps
    cases resps with
    | nil => exact absurd rfl hne
    | cons a t =>
      have h1 : ¬(name = "Data Collection and Processing" ∧ r < 1 ∧
          (∀ p ∈ dcp_points pts (a :: t), p = some 1) ∧
          dcp_points pts (a :: t) ≠ []) := fun h => hname h.1
      have h2 : ¬(r < 1 ∧ should_have_perfect_score name (a :: t) = true) :=
        fun h => by
          rw [hsps] at h
          exact absurd h.2 (by simp)
      have h3 : ¬((95 : ℚ)/100 ≤ r ∧ r < 1) := fun h => absurd h.1 (not_le.mpr hr)
      simp only [verify_section_score]
      rw [if_neg h1, if_neg h2, if_neg h3]

/-- Witness for C4 amended at a concrete "Data Collection and Processing"
input: raw `4/5` with a single response mapped to `1.0` is forced to
`1.0`. -/
theorem all_ones_correction_amended_witness :
    verify_section_score "Data Collection and Processing" (some ((4 : ℚ)/5))
      ["Good"] [("Good", some 1)] = some 1 :=
  all_ones_correction_amended.1 (4/5) ["Good"] [("Good", some 1)]
    (by decide) (by norm_num) (by decide) (by decide)

theorem sum_map_div (l : List ℚ) (c : ℚ) :
    (l.map (fun x => x / c)).sum = l.sum / c := by
  induction l with
  | nil => simp
  | cons a t ih => simp [ih, add_div]

theorem fqw_secs1_eq (q : Questionnaire)
    (hpos : ∀ s ∈ q.sections, ∃ x, s.weight = some x ∧ 0 < x) :
    fqw_secs1 q = q.sections := by
  unfold fqw_secs1
  conv_rhs => rw [← List.map_id q.sections]
  apply List.map_congr_left
  intro s hs
  obtain ⟨x, hx, hxpos⟩ := hpos s hs
  unfold fqw_step1
  rw [hx]
  simp [hxpos]

/-- C3 amended: for all-positive weights, `fix_questionnaire_weights`
leaves the weights untouched whenever their total lies in `[0.99, 1.01]`
(even when it differs from `1.0`); only outside that band does it divide
every weight by the total, after which the weights sum to exactly `1.0`
and all pairwise ratios are preserved (missing or non-positive weights
would first be replaced by `1/n`). -/
theorem fix_weights_amended (q : Questionnaire)
    (hne : q.sections ≠ [])
    (hpos : ∀ s ∈ q.sections, ∃ x, s.weight = some x ∧ 0 < x) :
    ((99/100 ≤ fqw_total q ∧ fqw_total q ≤ 101/100) →
        fix_questionnaire_weights q = some q) ∧
    (¬(99/100 ≤ fqw_total q ∧ fqw_total q ≤ 101/100) →
        fix_questionnaire_weights q =
          some ⟨q.sections.map
                  (fun s => setWeight s (some (s.weight.getD 0 / fqw_total q))),
                q.answer_points⟩ ∧
        ((q.sections.map
            (fun s => setWeight s (some (s.weight.getD 0 / fqw_total q)))).map
            (fun s => s.weight.getD 0)).sum = 1 ∧
        (∀ i j : Nat,
          ((q.sections.map (fun s => s.weight.getD 0 / fqw_total q)).getD i 0) *
              ((q.sections.map (fun s => s.weight.getD 0)).getD j 0) =
            ((q.sections.map (fun s => s.weight.getD 0 / fqw_total q)).getD j 0) *
              ((q.sections.map (fun s => s.weight.getD 0)).getD i 0))) ∧
    fqw_total q = (q.sections.map (fun s => s.weight.getD 0)).sum := by
  have hsecs1 : fqw_secs1 q = q.sections := fqw_secs1_eq q hpos
  have htot : fqw_total q = (q.sections.map (fun s => s.weight.getD 0)).sum := by
    unfold fqw_total
    rw [hsecs1]
  have hie : ¬(q.sections.isEmpty = true) := by
    simp only [List.isEmpty_iff]
    exact hne
  have hT : 0 < fqw_total q := by
    rw [htot]
    apply List.sum_pos
    · intro x hx
      rw [List.mem_map] at hx
      obtain ⟨s, hs, hxe⟩ := hx
      obtain ⟨w, hw, hwpos⟩ := hpos s hs
      rw [← hxe, hw]
      exact hwpos
    · simp [hne]
  refine ⟨?_, ?_, htot⟩
  · intro hband
    unfold fix_questionnaire_weights
    rw [if_neg hie, if_pos hband, hsecs1]
  · intro hnb
    unfold fix_questionnaire_weights
    rw [if_neg hie, if_neg hnb, hsecs1]
    refine ⟨rfl, ?_, ?_⟩
    · rw [List.map_map]
      have hcomp :
          ((fun s => s.weight.getD 0) ∘
              (fun s => setWeight s (some (s.weight.getD 0 / fqw_total q)))) =
            fun s : Section => s.weight.getD 0 / fqw_total q := rfl
      rw [hcomp]
      have hsplit :
          (q.sections.map (fun s : Section => s.weight.getD 0 / fqw_total q)) =
            ((q.sections.map (fun s : Section => s.weight.getD 0)).map
              (fun x => x / fqw_total q)) := by
        rw [List.map_map]
        rfl
      rw [hsplit, sum_map_div, ← htot]
      exact div_self (ne_of_gt hT)
    · intro i j
      have hmap : ∀ k : Nat,
          (q.sections.map (fun s : Section => s.weight.getD 0 / fqw_total q)).getD k 0 =
            ((q.sections.map (fun s : Section => s.weight.getD 0)).getD k 0) /
              (if ((q.sections.map (fun s : Section => s.weight.getD 0))[k]?).isSome
               then fqw_total q else 1) := by
        intro k
        rw [List.getD_eq_getElem?_getD, List.getD_eq_getElem?_getD,
            List.getElem?_map, List.getElem?_map]
        cases hk : q.sections[k]? with
        | none => simp
        | some s => simp
      rw [hmap i, hmap j, List.getD_eq_getElem?_getD, List.getD_eq_getElem?_getD,
          List.getElem?_map, List.getElem?_map]
      cases hi : q.sections[i]? <;> cases hj : q.sections[j]? <;>
        (simp
         try ring)

/-- Witness for C3: weights `1/4`/`1/4` (total `1/2`, outside the band)
are normalized by dividing each by the total. -/
theorem fix_weights_amended_witness :
    fix_questionnaire_weights qHalf =
      some ⟨qHalf.sections.map
              (fun s => setWeight s (some (s.weight.getD 0 / fqw_total qHalf))),
            qHalf.answer_points⟩ := by
  have hT : fqw_total qHalf = 1/2 := by
    norm_num [fqw_total, fqw_secs1, fqw_step1, qHalf, setWeight]
  have hpos : ∀ s ∈ qHalf.sections, ∃ x, s.weight = some x ∧ 0 < x := by
    intro s hs
    simp only [qHalf, List.mem_cons, List.not_mem_nil, or_false] at hs
    rcases hs with rfl | rfl
    · exact ⟨1/4, rfl, by norm_num⟩
    · exact ⟨1/4, rfl, by norm_num⟩
  have h := (fix_weights_amended qHalf (by decide) hpos).2.1
  exact (h (by rw [hT]; norm_num)).1

theorem fallback_minimal_nonempty (reg ind : String) :
    1 ≤ (fallback_minimal reg ind).sections.length := by
  unfold fallback_minimal fallback_section_names
  split_ifs <;> simp

/-- C2 amended: questionnaire resolution never raises; a missing
regulation directory yields the synthesized fallback, which (without the
locked e-commerce override) has at least one section; but when the
resolved rule-set file fails to open or decode, the function returns the
empty questionnaire `{"sections": []}` — zero sections — instead of the
fallback. -/
theorem questionnaire_resolution_amended :
    (∀ (reg ind : String) (fs : FS) (locked : Bool),
       fs.dirExists (pjoin QDIR (upperStr (stripStr reg))) = false →
       get_questionnaire reg ind fs locked =
         create_fallback_questionnaire (upperStr (stripStr reg))
           (lowerStr (stripStr ind)) fs locked) ∧
    (∀ (reg ind : String) (fs : FS),
       1 ≤ (create_fallback_questionnaire reg ind fs false).sections.length) ∧
    (∀ (reg ind : String) (fs : FS) (locked : Bool) (f : String),
       fs.dirExists (pjoin QDIR (upperStr (stripStr reg))) = true →
       resolve_found_file (upperStr (stripStr reg)) (lowerStr (stripStr ind)) fs
         (pjoin QDIR (upperStr (stripStr reg))) = some f →
       fs.readJson (pjoin (pjoin QDIR (upperStr (stripStr reg))) f) = none →
       get_questionnaire reg ind fs locked = emptyQuestionnaire) := by
  refine ⟨?_, ?_, ?_⟩
  · intro reg ind fs locked hdir
    unfold get_questionnaire get_questionnaire_core
    rw [hdir]
    simp
  · intro reg ind fs
    unfold create_fallback_questionnaire
    rw [if_neg (fun h => by simp at h : ¬(false = true ∧ lowerStr ind ≠ "e-commerce"))]
    exact fallback_minimal_nonempty reg ind
  · intro reg ind fs locked f hdir hres hread
    unfold get_questionnaire get_questionnaire_core
    rw [hdir, hres]
    simp [hread]

/-- Witness for C2 amended: with no rule-set directory, the fallback is
returned and it is non-empty. -/
theorem questionnaire_resolution_amended_witness :
    get_questionnaire "DPDP" "retail" fsNoDir false =
      create_fallback_questionnaire "DPDP" "retail" fsNoDir false ∧
    1 ≤ (create_fallback_questionnaire "DPDP" "retail" fsNoDir false).sections.length := by
  constructor
  · have h := questionnaire_resolution_amended.1 "DPDP" "retail" fsNoDir false rfl
    rw [h]
    have h1 : upperStr (stripStr "DPDP") = "DPDP" := by decide
    have h2 : lowerStr (stripStr "retail") = "retail" := by decide
    rw [h1, h2]
  · exact questionnaire_resolution_amended.2.1 "DPDP" "retail" fsNoDir

/-- C8: for every industry code, resolving regulation "NPC" loads the
single canonical `npc.json` document: the result is the parse of that one
file, whatever the industry argument is. -/
theorem npc_ignores_industry (industry : String) (fs : FS) (locked : Bool)
    (q : Questionnaire)
    (hdir : fs.dirExists (pjoin QDIR "NPC") = true)
    (hfile : fs.fileExists (pjoin (pjoin QDIR "NPC") "npc.json") = true)
    (hread : fs.readJson (pjoin (pjoin QDIR "NPC") "npc.json") = some q) :
    get_questionnaire "NPC" industry fs locked = q := by
  have hreg : upperStr (stripStr "NPC") = "NPC" := by decide
  unfold get_questionnaire
  rw [hreg]
  have hres : resolve_found_file "NPC" (lowerStr (stripStr industry)) fs
      (pjoin QDIR "NPC") = some "npc.json" := by
    unfold resolve_found_file
    simp [hfile]
  unfold get_questionnaire_core
  rw [hdir, hres]
  simp [hread]

/-- Witness for C8: two different industry arguments resolve to the same
NPC document. -/
theorem npc_ignores_industry_witness :
    get_questionnaire "NPC" "banking" fsNPC false = qNPC ∧
    get_questionnaire "NPC" "Oil_and_Gas" fsNPC false = qNPC :=
  ⟨npc_ignores_industry "banking" fsNPC false qNPC rfl (by decide) (by decide),
   npc_ignores_industry "Oil_and_Gas" fsNPC false qNPC rfl (by decide) (by decide)⟩

theorem enumFromNat_set (a : Section) :
    ∀ (l : List Section) (k i : Nat),
      enumFromNat k (l.set i a) = (enumFromNat k l).set i (k + i, a) := by
  intro l
  induction l with
  | nil =>
    intro k i
    rfl
  | cons b t ih =>
    intro k i
    cases i with
    | zero => rfl
    | succ j =>
      show (k, b) :: enumFromNat (k + 1) (t.set j a) =
        (k, b) :: (enumFromNat (k + 1) t).set j (k + (j + 1), a)
      rw [ih (k + 1) j]
      have harith : k + 1 + j = k + (j + 1) := by omega
      rw [harith]

theorem getElem?_enumFromNat :
    ∀ (l : List Section) (k i : Nat),
      (enumFromNat k l)[i]? = l[i]?.map (fun s => (k + i, s)) := by
  intro l
  induction l with
  | nil =>
    intro k i
    simp [enumFromNat]
  | cons b t ih =>
    intro k i
    cases i with
    | zero => simp [enumFromNat]
    | succ j =>
      simp only [enumFromNat, List.getElem?_cons_succ, ih (k + 1) j]
      have harith : (fun s : Section => (k + 1 + j, s)) =
          (fun s : Section => (k + (j + 1), s)) := by
        funext s
        have : k + 1 + j = k + (j + 1) := by omega
        rw [this]
      rw [harith]

theorem mem_enumFromNat (l : List Section) (i : Nat) (hi : i < l.length) :
    (i, l[i]) ∈ enumFromNat 0 l := by
  have h := getElem?_enumFromNat l 0 i
  rw [List.getElem?_eq_getElem hi] at h
  simp only [Option.map_some, Nat.zero_add] at h
  exact List.getElem?_mem h

theorem list_set_self {α : Type} :
    ∀ (l : List α) (i : Nat) (a : α), l[i]? = some a → l.set i a = l := by
  intro l
  induction l with
  | nil =>
    intro i a h
    simp at h
  | cons b t ih =>
    intro i a h
    cases i with
    | zero =>
      simp only [List.getElem?_cons_zero, Option.some.injEq] at h
      rw [← h]
      rfl
    | succ j =>
      simp only [List.getElem?_cons_succ] at h
      show b :: t.set j a = b :: t
      rw [ih j a h]

theorem lookup_of_mem_nodup {β : Type} :
    ∀ (l : List (String × β)) (k : String) (v : β),
      (l.map Prod.fst).Nodup → (k, v) ∈ l → List.lookup k l = some v := by
  intro l
  induction l with
  | nil =>
    intro k v _ h
    simp at h
  | cons a t ih =>
    intro k v hnd hmem
    obtain ⟨a1, a2⟩ := a
    rw [List.map_cons] at hnd
    have hnd' := List.nodup_cons.mp hnd
    rcases List.mem_cons.mp hmem with heq | hmem'
    · cases heq
      simp [List.lookup]
    · have hk : k ∈ t.map Prod.fst := List.mem_map.mpr ⟨(k, v), hmem', rfl⟩
      have hne : (k == a1) = false := by
        rw [Bool.eq_false_iff]
        intro hb
        exact hnd'.1 ((eq_of_beq hb) ▸ hk)
      simp only [List.lookup, hne]
      exact ih k v hnd'.2 hmem'

theorem dictGet_of_mem_nodup (l : List (String × Option ℚ)) (k : String)
    (v : Option ℚ) (hnd : (l.map Prod.fst).Nodup) (hmem : (k, v) ∈ l) :
    dictGet l k = some v := by
  unfold dictGet
  apply lookup_of_mem_nodup
  · rw [List.map_reverse]
    exact List.nodup_reverse.mpr hnd
  · exact List.mem_reverse.mpr hmem

theorem foldl_set_skip {α β : Type} (step : β → α → β) :
    ∀ (l : List α) (i : Nat) (a : α) (acc : β),
      (∀ b, step b a = b) →
      (∀ x, l[i]? = some x → ∀ b, step b x = b) →
      (l.set i a).foldl step acc = l.foldl step acc := by
  intro l
  induction l with
  | nil =>
    intro i a acc _ _
    rfl
  | cons x t ih =>
    intro i a acc h1 h2
    cases i with
    | zero =>
      show List.foldl step (step acc a) t = List.foldl step (step acc x) t
      rw [h1 acc, h2 x (by simp) acc]
    | succ j =>
      show List.foldl step (step acc x) (t.set j a) = List.foldl step (step acc x) t
      exact ih j a (step acc x) h1 (fun y hy b => h2 y (by simpa using hy) b)

theorem inline_totals_unanswered (pts : AnswerPoints) (rs : Responses)
    (sIdx n : Nat)
    (h : ∀ j, j < n → rlookup rs (respKey sIdx j) = none ∨
         rlookup rs (respKey sIdx j) = some none) :
    inline_totals pts rs sIdx n = (0, []) := by
  unfold inline_totals
  have key : ∀ (l : List Nat) (acc : ℚ × List String),
      (∀ j ∈ l, rlookup rs (respKey sIdx j) = none ∨
        rlookup rs (respKey sIdx j) = some none) →
      l.foldl (inline_step pts rs sIdx) acc = acc := by
    intro l
    induction l with
    | nil =>
      intro acc _
      rfl
    | cons j t ih =>
      intro acc hl
      have hstep : inline_step pts rs sIdx acc j = acc := by
        unfold inline_step
        rcases hl j (List.mem_cons_self j t) with h0 | h0 <;> rw [h0]
      rw [List.foldl_cons, hstep]
      exact ih acc (fun y hy => hl y (List.mem_cons_of_mem j hy))
  exact key (List.range n) (0, []) (fun j hj => h j (List.mem_range.mp hj))

theorem section_final_unanswered (pts : AnswerPoints) (rs : Responses)
    (sIdx : Nat) (sec : Section)
    (h : inline_totals pts rs sIdx sec.questions.length = (0, [])) :
    section_final pts rs sIdx sec = none := by
  simp [section_final, inline_raw, h, verify_section_score]

/-- C7: a section with zero answered questions is stored as unscored
(`None`) and contributes zero weight to the overall weighted average — the
overall score does not depend on its weight at all; in particular, with
section "A" fully answered at `1.0` per question and section "B" fully
unanswered, the overall score is `100`, not halved. -/
theorem unscored_section_excluded :
    (calculate_compliance_score qScenario rsScenario =
       ([("A", some 1), ("B", none)], 100)) ∧
    (∀ (sections : List Section) (rs : Responses) (pts : AnswerPoints) (i : Nat)
       (hi : i < sections.length),
       ((enumFromNat 0 sections).map (fun p => effName p.1 p.2)).Nodup →
       (∀ j, j < sections[i].questions.length →
          rlookup rs (respKey i j) = none ∨ rlookup rs (respKey i j) = some none) →
       dictGet (section_scores_list pts rs sections) (effName i sections[i]) =
         some none ∧
       (∀ w', overall_from (sections.set i (setWeight sections[i] w')) rs pts =
              overall_from sections rs pts)) := by
  constructor
  · have hfix : fix_known_scoring_issues
        (if qScenario.answer_points.isEmpty then default_answer_points
         else qScenario.answer_points) = ptsScenario := by decide
    have hk00 : rlookup rsScenario (respKey 0 0) = some (some "Yes") := by decide
    have hk01 : rlookup rsScenario (respKey 0 1) = some (some "Yes") := by decide
    have hk10 : rlookup rsScenario (respKey 1 0) = none := by decide
    have hk11 : rlookup rsScenario (respKey 1 1) = none := by decide
    have hadd : inline_add ptsScenario "Yes" = 1 := by decide
    have ht0 : inline_totals ptsScenario rsScenario 0 2 = (2, ["Yes", "Yes"]) := by
      norm_num [inline_totals, List.range_succ, List.range_zero, inline_step,
        hk00, hk01, hadd]
    have ht1 : inline_totals ptsScenario rsScenario 1 2 = (0, []) := by
      norm_num [inline_totals, List.range_succ, List.range_zero, inline_step,
        hk10, hk11]
    have hlenA : secA7.questions.length = 2 := rfl
    have hnA : effName 0 secA7 = "A" := rfl
    have hnB : effName 1 secB7 = "B" := rfl
    have hraw : inline_raw ptsScenario rsScenario 0 2 = some 1 := by
      rw [inline_raw_eq ptsScenario rsScenario 0 2 (by rw [ht0]; simp)]
      rw [ht0]
      norm_num
    have hv : verify_section_score "A" (some 1) ["Yes", "Yes"] ptsScenario =
        some 1 := by
      norm_num [verify_section_score]
    have hsA : section_final ptsScenario rsScenario 0 secA7 = some 1 := by
      unfold section_final
      rw [hlenA, ht0, hraw, hnA, hv]
      simp
    have hsB : section_final ptsScenario rsScenario 1 secB7 = none :=
      section_final_unanswered ptsScenario rsScenario 1 secB7 ht1
    have hscoresS : section_scores_list ptsScenario rsScenario [secA7, secB7] =
        [("A", some 1), ("B", none)] := by
      simp [section_scores_list, enumFromNat, hnA, hnB, hsA, hsB]
    have hpair : overall_pair [secA7, secB7] rsScenario ptsScenario =
        (0 + 1 * ((1 : ℚ)/2), 0 + (1 : ℚ)/2) := by
      show ((enumFromNat 0 [secA7, secB7]).foldl
        (weight_step 2 (section_scores_list ptsScenario rsScenario [secA7, secB7]))
        (0, 0)) = _
      rw [hscoresS]
      rfl
    have hov : overall_from [secA7, secB7] rsScenario ptsScenario = 100 := by
      unfold overall_from
      rw [hpair]
      norm_num
    simp only [calculate_compliance_score]
    rw [hfix]
    show (section_scores_list ptsScenario rsScenario [secA7, secB7],
          overall_from [secA7, secB7] rsScenario ptsScenario) = _
    rw [hscoresS, hov]
  · intro sections rs pts i hi hnd hun
    have htot : inline_totals pts rs i (sections[i]).questions.length = (0, []) :=
      inline_totals_unanswered pts rs i _ hun
    have hfin : section_final pts rs i (sections[i]) = none :=
      section_final_unanswered pts rs i _ htot
    have hgetEnum : (enumFromNat 0 sections)[i]? = some (i, sections[i]) := by
      rw [getElem?_enumFromNat sections 0 i, List.getElem?_eq_getElem hi]
      simp
    have hmemScores : (effName i sections[i], (none : Option ℚ)) ∈
        section_scores_list pts rs sections := by
      unfold section_scores_list
      refine List.mem_map.mpr ⟨(i, sections[i]), mem_enumFromNat sections i hi, ?_⟩
      simp [hfin]
    have hkeys : ((section_scores_list pts rs sections).map Prod.fst).Nodup := by
      unfold section_scores_list
      rw [List.map_map]
      exact hnd
    have hdg : dictGet (section_scores_list pts rs sections)
        (effName i sections[i]) = some none :=
      dictGet_of_mem_nodup _ _ _ hkeys hmemScores
    refine ⟨hdg, ?_⟩
    intro w'
    have hscores : section_scores_list pts rs
        (sections.set i (setWeight sections[i] w')) =
        section_scores_list pts rs sections := by
      unfold section_scores_list
      rw [enumFromNat_set (setWeight sections[i] w') sections 0 i, Nat.zero_add,
        List.map_set]
      apply list_set_self
      rw [List.getElem?_map, hgetEnum]
      rfl
    unfold overall_from overall_pair
    rw [hscores, List.length_set,
      enumFromNat_set (setWeight sections[i] w') sections 0 i, Nat.zero_add]
    have hfold : ((enumFromNat 0 sections).set i (i, setWeight sections[i] w')).foldl
        (weight_step sections.length (section_scores_list pts rs sections)) (0, 0) =
        (enumFromNat 0 sections).foldl
          (weight_step sections.length (section_scores_list pts rs sections)) (0, 0) := by
      apply foldl_set_skip
      · intro b
        show (match dictGet (section_scores_list pts rs sections)
            (effName i sections[i]) with
          | some (some v) =>
            (b.1 + v * ((setWeight sections[i] w').weight.getD
                (1 / (sections.length : ℚ))),
             b.2 + (setWeight sections[i] w').weight.getD
                (1 / (sections.length : ℚ)))
          | _ => b) = b
        rw [hdg]
      · intro x hx b
        rw [hgetEnum] at hx
        have hx' := Option.some.inj hx
        rw [← hx']
        show (match dictGet (section_scores_list pts rs sections)
            (effName i sections[i]) with
          | some (some v) =>
            (b.1 + v * ((sections[i]).weight.getD (1 / (sections.length : ℚ))),
             b.2 + (sections[i]).weight.getD (1 / (sections.length : ℚ)))
          | _ => b) = b
        rw [hdg]
    rw [hfold]

/-- Witness for C7's general part: in the two-section scenario, changing
the unanswered section's weight to `7` does not change the overall
score. -/
theorem unscored_section_excluded_witness :
    dictGet (section_scores_list ptsScenario rsScenario [secA7, secB7])
      (effName 1 secB7) = some none ∧
    overall_from ([secA7, secB7].set 1 (setWeight secB7 (some 7)))
      rsScenario ptsScenario =
      overall_from [secA7, secB7] rsScenario ptsScenario := by
  have h := unscored_section_excluded.2 [secA7, secB7] rsScenario ptsScenario 1
    (by decide) (by decide)
    (by
      intro j hj
      have hj2 : j < 2 := hj
      interval_cases j
      · exact Or.inl (by decide)
      · exact Or.inl (by decide))
  exact ⟨h.1, h.2 (some 7)⟩

end Dpdp
